import Mathlib

/-!
# Verification of the Shopify Insights extraction service

A shallow embedding of `shopify_insights_fastapi.py` (single-file FastAPI
service).  Pure extraction logic is translated into Lean functions; the
external collaborators (the HTTP transport `requests`, the HTML parser
`BeautifulSoup`, `urljoin`, and CPython's salted set enumeration) are
modelled as explicit oracle parameters.  Machine-level details that the
claims do not touch (timeouts, logging, database persistence, pydantic URL
validation) are dropped, as the spec declares them out of scope.
-/

namespace ShopifyInsights

set_option maxRecDepth 4000

/-! ## Python string/collection semantics helpers -/

/-- Contiguous-sublist test on character lists. -/
def charsIn : List Char → List Char → Bool
  | pat, [] => pat.isEmpty
  | pat, c :: rest => pat.isPrefixOf (c :: rest) || charsIn pat rest

/-- Python `pat in hay` substring test. -/
def pyIn (pat hay : String) : Bool :=
  charsIn pat.toList hay.toList

/-- Python's default whitespace set (`str.split()`, `str.strip()`, regex `\s`). -/
def pyIsSpace (c : Char) : Bool :=
  c = ' ' || c = '\t' || c = '\n' || c = '\r' || c = '\x0b' || c = '\x0c'

/-- Python `str.strip()` (whitespace trim on both ends). -/
def pyStrip (s : String) : String :=
  ⟨((s.toList.dropWhile pyIsSpace).reverse.dropWhile pyIsSpace).reverse⟩

/-- Python `str.lower()` (ASCII case folding; all inputs considered are ASCII). -/
def pyLower (s : String) : String :=
  ⟨s.toList.map Char.toLower⟩

/-- Python `s.startswith(pre)`. -/
def pyStartsWith (s pre : String) : Bool :=
  pre.toList.isPrefixOf s.toList

/-- Python `base_url.rstrip('/')`. -/
def pyRstripSlash (s : String) : String :=
  ⟨(s.toList.reverse.dropWhile (· = '/')).reverse⟩

/-- Left-to-right non-overlapping replacement of a non-empty pattern; fuel
is the remaining length. -/
def replaceAux (pat rep : List Char) : Nat → List Char → List Char
  | 0, cs => cs
  | _, [] => []
  | Nat.succ fuel, c :: rest =>
    if pat.isPrefixOf (c :: rest) then
      rep ++ replaceAux pat rep fuel ((c :: rest).drop pat.length)
    else c :: replaceAux pat rep fuel rest

/-- Python `s.replace(pat, rep)`: all non-overlapping occurrences, left to
right; an empty pattern inserts `rep` at every boundary. -/
def pyReplace (s pat rep : String) : String :=
  if pat = "" then
    ⟨rep.toList ++ (s.toList.map (fun c => c :: rep.toList)).flatten⟩
  else ⟨replaceAux pat.toList rep.toList s.toList.length s.toList⟩

/-- Python `str.split()` (split on whitespace runs, no empty fields), used
by BeautifulSoup for the multi-valued `class` attribute. -/
def splitWsAux : Nat → List Char → List String
  | 0, _ => []
  | _, [] => []
  | Nat.succ fuel, c :: rest =>
    if pyIsSpace c then splitWsAux fuel rest
    else
      let w := (c :: rest).takeWhile (fun d => !pyIsSpace d)
      ⟨w⟩ :: splitWsAux fuel ((c :: rest).drop w.length)

def pySplitWs (s : String) : List String :=
  splitWsAux s.toList.length s.toList

/-- Python truthiness of an optional string: `None` and `""` are falsy. -/
def pyTruthyS : Option String → Bool
  | none => false
  | some s => s ≠ ""

/-- Python `x or ''` for an optional string. -/
def pyOrEmpty : Option String → String
  | none => ""
  | some s => s

/-- Python `str(x)` for an `Optional[int]` (`str(None) = "None"`). -/
def pyStrOptInt : Option Int → String
  | none => "None"
  | some n => toString n

/-- Python dict lookup `d.get(k)` on an insertion-ordered association
list (keys unique by construction). -/
def pyLookup (k : String) : List (String × α) → Option α
  | [] => none
  | kv :: rest => if kv.1 = k then some kv.2 else pyLookup k rest

/-- Python dict assignment `d[k] = v`: update in place if the key exists
(keeping its position), otherwise append at the end (insertion order). -/
def pyDictSet (d : List (String × α)) (k : String) (v : α) : List (String × α) :=
  if d.any (fun kv => kv.1 = k) then
    d.map (fun kv => if kv.1 = k then (k, v) else kv)
  else
    d ++ [(k, v)]

/-! ## JSON values and Python dynamic-typing errors

`requests.Response.json()` hands back an arbitrary decoded JSON value on
which the source then performs dynamically-typed operations.  Operations
that would raise in Python are modelled with `Except PyErr`. -/

inductive Json where
  | null
  | bool (b : Bool)
  | num (n : Int)
  | str (s : String)
  | arr (xs : List Json)
  | obj (fields : List (String × Json))

/-- The uncaught-exception classes the feed-normalization path can raise.
`valueError` also stands for `pydantic.ValidationError` (a `ValueError`
subclass). -/
inductive PyErr where
  | attributeError
  | typeError
  | valueError
  deriving Repr, DecidableEq

/-- Python truthiness of a decoded JSON value. -/
def Json.pyTruthy : Json → Bool
  | .null => false
  | .bool b => b
  | .num n => n ≠ 0
  | .str s => s ≠ ""
  | .arr xs => !xs.isEmpty
  | .obj fs => !fs.isEmpty

/-- Python `data.get(k)` (with default `None`): requires a dict, raising
`AttributeError` on any other value.  An absent key and a JSON `null` value
both come back as `None`. -/
def Json.pyGet : Json → String → Except PyErr Json
  | .obj fs, k =>
    match fs.find? (fun f => f.1 == k) with
    | some f => .ok f.2
    | none => .ok .null
  | _, _ => .error .attributeError

/-- Python `data.get(k, default)`. -/
def Json.pyGetD : Json → String → Json → Except PyErr Json
  | .obj fs, k, d =>
    match fs.find? (fun f => f.1 == k) with
    | some f => .ok f.2
    | none => .ok d
  | _, _, _ => .error .attributeError

/-- Python `for x in v`: iterating a list yields its elements, a string its
characters, a dict its keys; other values raise `TypeError`. -/
def Json.pyIter : Json → Except PyErr (List Json)
  | .arr xs => .ok xs
  | .str s => .ok (s.toList.map (fun c => .str (String.singleton c)))
  | .obj fs => .ok (fs.map (fun f => .str f.1))
  | _ => .error .typeError

/-! ## Transport model and `safe_get` -/

/-- The slice of `requests.Response` the source reads: the status code, the
decoded JSON body (`none` models a body on which `.json()` raises
`ValueError`), and the raw text. -/
structure Response where
  status_code : Int
  jsonBody : Option Json
  text : String

/-- Outcome of `requests.get`: either a response or a raised
`requests.RequestException`. -/
abbrev HttpOracle := String → Except Unit Response

/-- `safe_get` (source lines 76-86): return the response exactly when the
request completes without exception and the status code is exactly 200;
any other status and any request exception yield `None`. -/
def safe_get (http : HttpOracle) (url : String) : Option Response :=
  match http url with
  | .error _ => none
  | .ok r => if r.status_code == 200 then some r else none

/-! ## Product records and the Catalog Normalizer -/

/-- The `Product` pydantic model (source lines 43-48).  Variant dicts are
kept as opaque JSON objects. -/
structure Product where
  id : Option Int
  title : Option String
  handle : Option String
  variants : Option (List Json)
  images : Option (List String)

/-- Pydantic field decoding for `Optional[int]` / `Optional[str]` style
fields at the precision the considered inputs need: `null` maps to `None`,
a value of the declared type maps to itself, and any other shape is a
`ValidationError` (a `ValueError` subclass).  Pydantic v1 coercions between
primitive types are not exercised by any input considered here. -/
def decodeOptInt : Json → Except PyErr (Option Int)
  | .null => .ok none
  | .num n => .ok (some n)
  | _ => .error .valueError

def decodeOptStr : Json → Except PyErr (Option String)
  | .null => .ok none
  | .str s => .ok (some s)
  | _ => .error .valueError

def decodeVariants : Json → Except PyErr (Option (List Json))
  | .null => .ok none
  | .arr xs =>
    if xs.all (fun x => match x with | .obj _ => true | _ => false) then
      .ok (some xs)
    else .error .valueError
  | _ => .error .valueError

/-- `img.get("src")` for each image object, then the `Optional[List[str]]`
pydantic check. -/
def decodeImages (imgs : List Json) : Except PyErr (List String) := do
  let srcs ← imgs.mapM (fun img => img.pyGet "src")
  srcs.mapM (fun s => match s with
    | .str t => .ok t
    | _ => .error .valueError)

/-- Construction of one `Product` from a raw feed entry
(source lines 97-103): defensive `.get` calls for each field; the image
list is `[img.get("src") for img in p.get("images", [])]` when
`p.get("images")` is truthy and `[]` otherwise. -/
def mkProduct (p : Json) : Except PyErr Product := do
  let idJ ← p.pyGet "id"
  let id ← decodeOptInt idJ
  let titleJ ← p.pyGet "title"
  let title ← decodeOptStr titleJ
  let handleJ ← p.pyGet "handle"
  let handle ← decodeOptStr handleJ
  let variantsJ ← p.pyGet "variants"
  let variants ← decodeVariants variantsJ
  let imagesJ ← p.pyGet "images"
  let images ←
    if imagesJ.pyTruthy then do
      let imgsJ ← p.pyGetD "images" (.arr [])
      let imgs ← imgsJ.pyIter
      decodeImages imgs
    else
      pure []
  .ok { id, title, handle, variants, images := some images }

/-- The accumulation loop `for p in raw_products: ... products.append(prod)`:
entries are converted in order; the first error stops the loop, reporting
the products accumulated so far together with the error. -/
def buildProducts : List Json → List Product → List Product × Option PyErr
  | [], acc => (acc, none)
  | p :: rest, acc =>
    match mkProduct p with
    | .ok prod => buildProducts rest (acc ++ [prod])
    | .error e => (acc, some e)

/-- `fetch_products_json` (source lines 88-109).  The `try` block catches
only `ValueError` (which includes pydantic validation errors), returning
the products accumulated so far; `AttributeError` / `TypeError` raised by
the dynamically-typed accesses propagate out as `.error`. -/
def fetch_products_json (http : HttpOracle) (base_url : String) :
    Except PyErr (List Product) :=
  let candidate := pyRstripSlash base_url ++ "/products.json"
  match safe_get http candidate with
  | none => .ok []
  | some r =>
    match r.jsonBody with
    | none => .ok []
    | some data =>
      match data.pyGet "products" with
      | .error e => .error e
      | .ok pv =>
        let rawStep : Except PyErr Json :=
          if pv.pyTruthy then .ok pv
          else
            match data.pyGet "items" with
            | .error e => .error e
            | .ok iv => if iv.pyTruthy then .ok iv else .ok (.arr [])
        match rawStep with
        | .error e => .error e
        | .ok raw =>
          match raw.pyIter with
          | .error e => .error e
          | .ok entries =>
            match buildProducts entries [] with
            | (ps, none) => .ok ps
            | (ps, some .valueError) => .ok ps
            | (_, some .attributeError) => .error .attributeError
            | (_, some .typeError) => .error .typeError

/-! ## DOM model (output of the external `BeautifulSoup` parser)

BeautifulSoup itself is an external collaborator; the pipeline is modelled
over the tree it produces.  Only the node features the source reads are
kept: tag name, attributes, children, text. -/

inductive Dom where
  | text (s : String)
  | elem (tag : String) (attrs : List (String × String)) (children : List Dom)

mutual

/-- Pre-order list of all nodes of a tree, the node itself first. -/
def Dom.allNodes : Dom → List Dom
  | .text s => [.text s]
  | .elem t a cs => .elem t a cs :: Dom.allNodesList cs

def Dom.allNodesList : List Dom → List Dom
  | [] => []
  | d :: ds => d.allNodes ++ Dom.allNodesList ds

end

def Dom.isElem : Dom → Bool
  | .elem _ _ _ => true
  | .text _ => false

/-- All element (Tag) nodes of the document, in document order. -/
def Dom.elems (d : Dom) : List Dom :=
  d.allNodes.filter Dom.isElem

/-- Strict descendants of a node (used by `tag.find(...)`, which does not
match the tag itself), in document order. -/
def Dom.descElems : Dom → List Dom
  | .text _ => []
  | .elem _ _ cs => (Dom.allNodesList cs).filter Dom.isElem

def Dom.tagName : Dom → String
  | .elem t _ _ => t
  | .text _ => ""

/-- `tag.get(attr)` / `tag.attrs.get(attr)`. -/
def Dom.attr : Dom → String → Option String
  | .elem _ attrs _, k => (attrs.find? (fun kv => kv.1 == k)).map (fun kv => kv.2)
  | .text _, _ => none

/-- The multi-valued `class` attribute, split on whitespace as
BeautifulSoup does. -/
def Dom.classes (d : Dom) : List String :=
  match d.attr "class" with
  | none => []
  | some s => pySplitWs s

mutual

/-- All text-node strings below (and including) a node, in document order. -/
def Dom.texts : Dom → List String
  | .text s => [s]
  | .elem _ _ cs => Dom.textsList cs

def Dom.textsList : List Dom → List String
  | [] => []
  | d :: ds => d.texts ++ Dom.textsList ds

end

/-- `tag.get_text(strip=True)`: every text fragment stripped, empties
dropped, and the rest joined with no separator. -/
def Dom.getTextStrip (d : Dom) : String :=
  String.join ((d.texts.map pyStrip).filter (fun s => s ≠ ""))

/-- `tag.string`: the string of a lone text child, recursing through a lone
element child, `None` otherwise. -/
def Dom.domString : Dom → Option String
  | .text s => some s
  | .elem _ _ [c] => Dom.domString c
  | .elem _ _ _ => none

/-- `soup.find_all('a', href=True)`: every anchor element carrying an
`href` attribute, in document order. -/
def Dom.anchorsWithHref (d : Dom) : List Dom :=
  d.elems.filter (fun e => e.tagName == "a" && (e.attr "href").isSome)

/-- `tag.find('a', href=True)`: first such anchor among strict descendants. -/
def Dom.findAnchorWithHref (d : Dom) : Option Dom :=
  d.descElems.find? (fun e => e.tagName == "a" && (e.attr "href").isSome)

/-- `soup.select('.cls')`: elements whose class list contains the token. -/
def Dom.selectClass (d : Dom) (cls : String) : List Dom :=
  d.elems.filter (fun e => e.classes.any (fun c => c == cls))

/-! ## Regex scans over the raw markup

`re.findall` for the two entity patterns of `extract_links_and_text`
(source lines 126-127), and `re.search(r'/products/([^/?#]+)', href)` used
by `hero_product_matches` (source line 207).  Every character class of
these patterns excludes the literal that follows it, so greedy maximal-
munch scanning coincides exactly with the backtracking regex semantics
(for the phone pattern the single final-digit backtrack is resolved
explicitly). -/

def isEmailLocal (c : Char) : Bool :=
  c.isAlpha || c.isDigit || c = '_' || c = '.' || c = '+' || c = '-'

def isEmailHost (c : Char) : Bool :=
  c.isAlpha || c.isDigit || c = '-'

def isEmailTld (c : Char) : Bool :=
  c.isAlpha || c.isDigit || c = '-' || c = '.'

/-- Try the email pattern `[a-zA-Z0-9_.+-]+@[a-zA-Z0-9-]+\.[a-zA-Z0-9-.]+`
at the head of `cs`; on success, the matched text and the remainder. -/
def emailMatchAt (cs : List Char) : Option (List Char × List Char) :=
  let r1 := cs.takeWhile isEmailLocal
  if r1.isEmpty then none else
  match cs.drop r1.length with
  | '@' :: rest2 =>
    let r2 := rest2.takeWhile isEmailHost
    if r2.isEmpty then none else
    (match rest2.drop r2.length with
     | '.' :: rest3 =>
       let r3 := rest3.takeWhile isEmailTld
       if r3.isEmpty then none else
       some (r1 ++ '@' :: (r2 ++ '.' :: r3), rest3.drop r3.length)
     | _ => none)
  | _ => none

/-- `re.findall`: scan left to right, emitting non-overlapping leftmost
matches.  Fuel is the remaining string length. -/
def emailScan : Nat → List Char → List String
  | 0, _ => []
  | _, [] => []
  | Nat.succ fuel, c :: rest =>
    match emailMatchAt (c :: rest) with
    | some (m, after) => String.mk m :: emailScan fuel after
    | none => emailScan fuel rest

def pyFindallEmails (html : String) : List String :=
  emailScan html.toList.length html.toList

def isPhoneMid (c : Char) : Bool :=
  c.isDigit || c = '-' || pyIsSpace c || c = '(' || c = ')'

/-- Greedy split for `[\d\-\s()]{6,}\d` applied to the maximal
`isPhoneMid` run `r`: the largest index `j ≥ 6` with `r[j]` a digit, the
match consuming `r[0..j]`. -/
def phoneSplit (r : List Char) : Option Nat :=
  ((List.range r.length).filter
    (fun j => 6 ≤ j && (r.getD j ' ').isDigit)).getLast?

/-- Try the phone pattern `\+?\d[\d\-\s()]{6,}\d` at the head of `cs`. -/
def phoneMatchAt (cs : List Char) : Option (List Char × List Char) :=
  let core : List Char → Option (List Char × List Char) := fun body =>
    match body with
    | d :: rest =>
      if d.isDigit then
        let r := rest.takeWhile isPhoneMid
        match phoneSplit r with
        | some j => some (d :: r.take (j + 1), rest.drop (j + 1))
        | none => none
      else none
    | [] => none
  match cs with
  | '+' :: rest =>
    (match core rest with
     | some (m, after) => some ('+' :: m, after)
     | none => none)
  | _ => core cs

def phoneScan : Nat → List Char → List String
  | 0, _ => []
  | _, [] => []
  | Nat.succ fuel, c :: rest =>
    match phoneMatchAt (c :: rest) with
    | some (m, after) => String.mk m :: phoneScan fuel after
    | none => phoneScan fuel rest

def pyFindallPhones (html : String) : List String :=
  phoneScan html.toList.length html.toList

/-- `re.search(r'/products/([^/?#]+)', href)`, returning group 1: at the
leftmost position where `/products/` is followed by at least one character
outside `/?#`, the maximal run of such characters. -/
def productsHandleAt (cs : List Char) : Option String :=
  if ("/products/".toList).isPrefixOf cs then
    let rest := cs.drop 10
    let seg := rest.takeWhile (fun c => c ≠ '/' && c ≠ '?' && c ≠ '#')
    if seg.isEmpty then none else some (String.mk seg)
  else none

def productsHandleScan : Nat → List Char → Option String
  | 0, _ => none
  | _, [] => none
  | Nat.succ fuel, c :: rest =>
    match productsHandleAt (c :: rest) with
    | some seg => some seg
    | none => productsHandleScan fuel rest

def extractProductsHandle (href : String) : Option String :=
  productsHandleScan href.toList.length href.toList

/-! ## Page Analyzer: `extract_links_and_text` (source lines 111-157) -/

/-- One product-card candidate dict `{'href': ..., 'text': ...}`.  The
fields are optional because `hero_product_matches` reads them with
defensive `.get` calls. -/
structure Card where
  href : Option String
  text : Option String

/-- The signal bundle returned by `extract_links_and_text`. -/
structure Parsed where
  title : Option String
  links : List (String × String)
  product_cards : List Card
  emails : List String
  phones : List String
  about_text : Option String
  social : List (String × String)

/-- `soup.title` then `.string` with the truthiness guards of line 113;
the strip is applied after the guard. -/
def titleOf (soup : Dom) : Option String :=
  match soup.elems.find? (fun e => e.tagName == "title") with
  | none => none
  | some t =>
    match t.domString with
    | none => none
    | some s => if s = "" then none else some (pyStrip s)

/-- The link table `{a.get_text(strip=True): a['href']}` (line 114): a dict
comprehension, so identical anchor texts collapse with last-write-wins. -/
def linksOf (soup : Dom) : List (String × String) :=
  soup.anchorsWithHref.foldl
    (fun d a => pyDictSet d a.getTextStrip (pyOrEmpty (a.attr "href"))) []

def cardSelectors : List String :=
  ["product-card", "product", "featured-product", "grid-item", "product-grid-item"]

/-- Product-card candidates (lines 115-125): per-selector document-order
scans concatenated in selector order, then every element bearing a
`data-product-handle` attribute. -/
def productCardsOf (soup : Dom) : List Card :=
  (cardSelectors.foldl (fun acc sel =>
      acc ++ ((soup.selectClass sel).filterMap (fun card =>
        (card.findAnchorWithHref).map (fun a =>
          { href := a.attr "href", text := some a.getTextStrip })))) [])
  ++ ((soup.elems.filter (fun e => (e.attr "data-product-handle").isSome)).map
      (fun tag => { href := tag.attr "data-product-handle",
                    text := some tag.getTextStrip }))

/-- About-text candidates (line 129): `p`/`div` elements whose id or
space-joined class list contains `about` case-insensitively. -/
def isAboutCandidate (e : Dom) : Bool :=
  (e.tagName == "p" || e.tagName == "div")
  && (pyIn "about" (pyLower (pyOrEmpty (e.attr "id")))
      || pyIn "about" (pyLower (String.intercalate " " e.classes)))

/-- About text (lines 128-135): join of the first three candidates'
stripped text, else a truthy meta-description content. -/
def aboutTextOf (soup : Dom) : Option String :=
  let cands := soup.elems.filter isAboutCandidate
  if !cands.isEmpty then
    some (String.intercalate " " ((cands.take 3).map Dom.getTextStrip))
  else
    match soup.elems.find? (fun e =>
        e.tagName == "meta" && (e.attr "name" == some "description")) with
    | none => none
    | some desc =>
      match desc.attr "content" with
      | none => none
      | some c => if c = "" then none else some c

/-- The `elif` chain of lines 139-148, as a classifier on one href. -/
def platformOf (href : String) : Option String :=
  if pyIn "instagram.com" href then some "instagram"
  else if pyIn "facebook.com" href then some "facebook"
  else if pyIn "twitter.com" href || pyIn "x.com" href then some "twitter"
  else if pyIn "tiktok.com" href then some "tiktok"
  else if pyIn "youtube.com" href then some "youtube"
  else none

/-- The five platforms the social-handle scan can ever write. -/
def fivePlatforms : List String :=
  ["instagram", "facebook", "twitter", "tiktok", "youtube"]

/-- One iteration of the social-handle loop body (lines 138-148). -/
def socialStep (d : List (String × String)) (href : String) :
    List (String × String) :=
  match platformOf href with
  | some p => pyDictSet d p href
  | none => d

/-- The social-handle loop (lines 136-148) over anchor hrefs. -/
def socialFold : List String → List (String × String) → List (String × String)
  | [], d => d
  | href :: rest, d => socialFold rest (socialStep d href)

def socialOf (soup : Dom) : List (String × String) :=
  socialFold (soup.anchorsWithHref.map (fun a => pyOrEmpty (a.attr "href"))) []

/-- `extract_links_and_text` (lines 111-157).  `parse` stands for the
external `BeautifulSoup(html, "html.parser")` call; `setListE`/`setListP`
stand for CPython's salt-dependent `list(set(...))` enumeration applied to
the email and phone match lists. -/
def extract_links_and_text (parse : String → Dom)
    (setListE setListP : List String → List String) (html : String) : Parsed :=
  let soup := parse html
  { title := titleOf soup
    links := linksOf soup
    product_cards := productCardsOf soup
    emails := setListE (pyFindallEmails html)
    phones := setListP (pyFindallPhones html)
    about_text := aboutTextOf soup
    social := socialOf soup }

/-! ## Policy Resolver: `find_policy_links` (source lines 159-181) -/

abbrev UrlJoin := String → String → String

def privacyPats : List String :=
  ["/policies/privacy-policy", "/policies/privacy-policy/"]

def refundPats : List String :=
  ["/policies/refund-policy", "/policies/refund-policy/",
   "/policies/returns", "/policies/return-policy"]

def termsPats : List String :=
  ["/policies/terms-of-service", "/policies/terms-of-service/"]

/-- The link-table scan of lines 168-173 for one category: every truthy
href containing one of the category's patterns overwrites the slot with
`urljoin(base, href)`, so the last matching link wins. -/
def linkTableMatch (urljoin : UrlJoin) (base : String) (pats : List String)
    (links : List (String × String)) : Option String :=
  links.foldl
    (fun acc kv =>
      if kv.2 = "" then acc
      else if pats.any (fun pat => pyIn pat kv.2) then some (urljoin base kv.2)
      else acc)
    none

/-- The link-table entries whose truthy href contains one of a category's
patterns (the entries the scan of lines 168-173 reacts to). -/
def matchingLinks (pats : List String) (links : List (String × String)) :
    List (String × String) :=
  links.filter (fun kv => !(kv.2 == "") && pats.any (fun pat => pyIn pat kv.2))

/-- The active-probe loop of lines 175-180: try `base + pat` in declared
order, stopping at the first reachable candidate.  Also returns the list
of URLs actually probed. -/
def probeCategory (http : HttpOracle) (base : String) :
    List String → Option String × List String
  | [] => (none, [])
  | pat :: rest =>
    let candidate := base ++ pat
    match safe_get http candidate with
    | some _ => (some candidate, [candidate])
    | none =>
      ((probeCategory http base rest).1,
       candidate :: (probeCategory http base rest).2)

/-- One category of the `for name, pats in patterns.items()` body: the
link-table scan, then — only if the slot is still falsy (`None` or `""`) —
the active probes. -/
def resolveCategory (http : HttpOracle) (urljoin : UrlJoin) (base : String)
    (links : List (String × String)) (pats : List String) :
    Option String × List String :=
  let lm := linkTableMatch urljoin base pats links
  if lm = none ∨ lm = some "" then
    match probeCategory http base pats with
    | (some c, ps) => (some c, ps)
    | (none, ps) => (lm, ps)
  else (lm, [])

/-- `find_policy_links` (lines 159-181), with the three fixed categories
unrolled in the dict-literal insertion order; the second component records
every probe issued. -/
def find_policy_links (http : HttpOracle) (urljoin : UrlJoin)
    (base_url : String) (html_links : List (String × String)) :
    List (String × Option String) × List String :=
  let base := pyRstripSlash base_url
  let r1 := resolveCategory http urljoin base html_links privacyPats
  let r2 := resolveCategory http urljoin base html_links refundPats
  let r3 := resolveCategory http urljoin base html_links termsPats
  ([("privacy_policy", r1.1), ("refund_policy", r2.1), ("terms_of_service", r3.1)],
   r1.2 ++ r2.2 ++ r3.2)

/-! ## FAQ Extractor: `try_fetch_faqs` (source lines 183-197) -/

/-- `re.compile('question|q\b', re.I)` — in the source this is a NON-raw
Python string, so `\b` is the backspace character `\x08`, not a word
boundary.  A class token matches iff its lowercase form contains
`question` or contains `q` followed by a literal backspace. -/
def matchesQPattern (cls : String) : Bool :=
  pyIn "question" (pyLower cls) || pyIn "q\x08" (pyLower cls)

/-- `re.compile('answer|a\b', re.I)` — same non-raw-string backspace. -/
def matchesAPattern (cls : String) : Bool :=
  pyIn "answer" (pyLower cls) || pyIn "a\x08" (pyLower cls)

def faqContainerClasses : List String := ["faq", "faqs", "accordion", "question"]

/-- `soup.select('.faq, .faqs, .accordion, .question')`: document-order
elements matching any of the four class selectors (each element once). -/
def faqContainers (soup : Dom) : List Dom :=
  soup.elems.filter (fun e =>
    e.classes.any (fun c => faqContainerClasses.any (fun f => f == c)))

/-- `try_fetch_faqs` (lines 183-197): the `<details>`/`<summary>` scan,
falling back to the container-class scan only when it yields nothing. -/
def try_fetch_faqs (soup : Dom) : List (String × String) :=
  let primary := (soup.elems.filter (fun e => e.tagName == "details")).filterMap
    (fun details =>
      match details.descElems.find? (fun e => e.tagName == "summary") with
      | none => none
      | some summary =>
        let q := summary.getTextStrip
        some (q, pyStrip (pyReplace details.getTextStrip q "")))
  if !primary.isEmpty then primary
  else
    (faqContainers soup).filterMap (fun li =>
      match li.descElems.find? (fun e => e.classes.any matchesQPattern),
            li.descElems.find? (fun e => e.classes.any matchesAPattern) with
      | some qTag, some aTag => some (qTag.getTextStrip, aTag.getTextStrip)
      | _, _ => none)

/-! ## Hero Matcher: `hero_product_matches` (source lines 199-225) -/

/-- The dict comprehension `{(p.handle or '').lower(): p for p in products}`:
later products overwrite earlier ones with the same key, so lookup returns
the last product with the given lowercased handle. -/
def handlesToProduct (products : List Product) (h : String) : Option Product :=
  (products.filter
    (fun p => pyLower (pyOrEmpty p.handle) == h)).getLast?

/-- The title-substring fallback of lines 214-217: the first catalog
product whose truthy title occurs (lowercased) in the card text. -/
def heroTitleScan (products acc : List Product) (text : String) : List Product :=
  match products.find? (fun p =>
      pyTruthyS p.title && pyIn (pyLower (pyOrEmpty p.title)) text) with
  | some p => acc ++ [p]
  | none => acc

/-- One iteration of the matching loop of lines 204-217: handle lookup
first (`card.get('href') or ''`, the `/products/` regex, the lowercased
handle dict), else the title scan. -/
def heroStep (products acc : List Product) (card : Card) : List Product :=
  match (extractProductsHandle (pyOrEmpty card.href)).map pyLower with
  | some handle =>
    (match handlesToProduct products handle with
     | some p => acc ++ [p]
     | none => heroTitleScan products acc (pyLower (pyOrEmpty card.text)))
  | none => heroTitleScan products acc (pyLower (pyOrEmpty card.text))

/-- The matching loop of lines 204-217 over all cards. -/
def heroRawMatches (cards : List Card) (products : List Product) : List Product :=
  cards.foldl (heroStep products) []

/-- The identity key of line 221: `h.handle or h.title or str(h.id)`. -/
def identityKey (h : Product) : String :=
  if pyTruthyS h.handle then pyOrEmpty h.handle
  else if pyTruthyS h.title then pyOrEmpty h.title
  else pyStrOptInt h.id

/-- The dedup loop of lines 218-224, with the `seen` set made explicit:
first occurrence of each identity key is kept, later ones dropped. -/
def dedupByKey : List Product → List String → List Product
  | [], _ => []
  | h :: t, seen =>
    if identityKey h ∈ seen then dedupByKey t seen
    else h :: dedupByKey t (identityKey h :: seen)

/-- `hero_product_matches` (lines 199-225). -/
def hero_product_matches (product_cards : List Card) (products : List Product)
    (_base_url : String) : List Product :=
  if products.isEmpty then []
  else dedupByKey (heroRawMatches product_cards products) []

/-! ## Context Assembler: `fetch_insights` (source lines 228-292) -/

/-- The `BrandContext` aggregate (source lines 55-66).  The `contact`
submodel is inlined as its three lists (`addresses` is always empty), and
the two `metadata` counts as the two fields the source writes.  Pydantic's
`HttpUrl` re-validation of the final URL string is not modelled. -/
structure BrandContext where
  website_url : String
  store_title : Option String
  about_text : Option String
  products : List Product
  hero_products : List Product
  policies : List (String × Option String)
  faqs : List (String × String)
  social_handles : List (String × String)
  emails : List String
  phones : List String
  addresses : List String
  important_links : List (String × String)
  found_products_count : Nat
  found_hero_count : Nat

/-- How a `/fetch` request can fail: the explicit 400 (missing
`website_url`), the explicit 401 (unreachable after the retry), or an
uncaught Python exception escaping the handler. -/
inductive FiError where
  | badRequest400
  | unreachable401 (url : String)
  | internalError (e : PyErr)
  deriving Repr, DecidableEq

/-- Line 233-234: prepend `https://` when the input does not start with
`http`. -/
def normalizeInputUrl (u : String) : String :=
  if !pyStartsWith u "http" then "https://" ++ u else u

/-- Lines 235-241: the initial fetch and the single `www.` retry.  Returns
the response (if any), the `website_url` value after the block, and the
list of homepage URLs passed to `safe_get`, in order. -/
def resolveHomepage (http : HttpOracle) (u : String) :
    Option Response × String × List String :=
  match safe_get http u with
  | some r => (some r, u, [u])
  | none =>
    if pyStartsWith u "https://" && !pyIn "www." u then
      let alt := pyReplace u "https://" "https://www."
      match safe_get http alt with
      | some r => (some r, alt, [u, alt])
      | none => (none, u, [u, alt])
    else (none, u, [u])

/-- The important-link loop of lines 252-263: three independent substring
triggers per link, each assignment joining the href against the canonical
website URL. -/
def importantLinks (urljoin : UrlJoin) (website_url : String)
    (links : List (String × String)) : List (String × String) :=
  links.foldl
    (fun d kv =>
      if kv.2 = "" then d
      else
        let ltext := pyLower kv.1
        let hrefl := pyLower kv.2
        let d := if pyIn "track" ltext || pyIn "track" hrefl then
            pyDictSet d "order_tracking" (urljoin website_url kv.2) else d
        let d := if pyIn "contact" ltext || pyIn "contact" hrefl then
            pyDictSet d "contact" (urljoin website_url kv.2) else d
        if pyIn "blog" ltext || pyIn "/blogs" hrefl then
          pyDictSet d "blog" (urljoin website_url kv.2) else d)
    []

/-- Lines 244-292: everything the handler does after the homepage fetch
succeeded, parametrized by the canonical `website_url` value `fin` and the
homepage response `r`.  Every downstream step receives `fin`. -/
def assemblePipeline (http : HttpOracle) (urljoin : UrlJoin)
    (parse : String → Dom) (setListE setListP : List String → List String)
    (fin : String) (r : Response) : Except FiError BrandContext :=
  let html := r.text
  let parsed := extract_links_and_text parse setListE setListP html
  match fetch_products_json http fin with
  | .error e => .error (.internalError e)
  | .ok products =>
    let hero := hero_product_matches parsed.product_cards products fin
    let pol := (find_policy_links http urljoin fin parsed.links).1
    let faqs := try_fetch_faqs (parse html)
    let important := importantLinks urljoin fin parsed.links
    .ok { website_url := fin
          store_title := parsed.title
          about_text := parsed.about_text
          products := products
          hero_products := hero
          policies := pol
          faqs := faqs
          social_handles := parsed.social
          emails := parsed.emails
          phones := parsed.phones
          addresses := []
          important_links := important
          found_products_count := products.length
          found_hero_count := hero.length }

/-- `fetch_insights` (lines 228-292): the `/fetch` handler.  Database
persistence (lines 283-291) swallows its own errors and does not affect
the returned value, so it is not modelled. -/
def fetch_insights (http : HttpOracle) (urljoin : UrlJoin)
    (parse : String → Dom) (setListE setListP : List String → List String)
    (payload : List (String × String)) : Except FiError BrandContext :=
  match pyLookup "website_url" payload with
  | none => .error .badRequest400
  | some wu =>
    if wu = "" then .error .badRequest400
    else
      let u := normalizeInputUrl wu
      match resolveHomepage http u with
      | (none, fin, _) => .error (.unreachable401 fin)
      | (some r, fin, _) => assemblePipeline http urljoin parse setListE setListP fin r

/-! ## Concrete fixtures for scenario evaluation -/

/-- Scenario-B feed body: `{"products":[{"id":1,"title":"Widget","handle":"widget"}]}`. -/
def feedBodyB : Json :=
  .obj [("products", .arr [.obj
    [("id", .num 1), ("title", .str "Widget"), ("handle", .str "widget")]])]

def feedRespB : Response := { status_code := 200, jsonBody := some feedBodyB, text := "" }

def httpB : HttpOracle := fun url =>
  if url = "https://x.com/products.json" then .ok feedRespB else .error ()

def productB : Product :=
  { id := some 1, title := some "Widget", handle := some "widget",
    variants := none, images := some [] }

def cardB : Card := { href := some "/products/widget", text := some "Widget" }

/-- A feed body that is valid JSON but not an object: the decoded value is
the list `[1]`, on which `data.get("products")` raises `AttributeError`. -/
def feedRespBad : Response :=
  { status_code := 200, jsonBody := some (.arr [.num 1]), text := "" }

def httpBad : HttpOracle := fun url =>
  if url = "https://x.com/products.json" then .ok feedRespBad else .error ()

/-- A feed whose single entry is an object with every field missing. -/
def feedRespM : Response :=
  { status_code := 200, jsonBody := some (.obj [("products", .arr [.obj []])]),
    text := "" }

def httpM : HttpOracle := fun url =>
  if url = "https://x.com/products.json" then .ok feedRespM else .error ()

/-- A homepage whose raw markup holds two email addresses and no digits. -/
def html0 : String :=
  "<html><head><title>T</title></head><body>a@x.com b@x.com</body></html>"

def dom0 : Dom :=
  .elem "html" []
    [.elem "head" [] [.elem "title" [] [.text "T"]],
     .elem "body" [] [.text "a@x.com b@x.com"]]

def parse0 : String → Dom := fun _ => dom0

def homeResp0 : Response := { status_code := 200, jsonBody := none, text := html0 }

/-- One admissible enumeration of `list(set(xs))`: dedup keeping first
occurrence (one possible salt). -/
def pySetListA (xs : List String) : List String :=
  xs.foldl (fun acc x => if acc.elem x then acc else acc ++ [x]) []

/-- Another admissible enumeration of the same mathematical set (another
possible salt): the first one reversed. -/
def pySetListB (xs : List String) : List String :=
  (pySetListA xs).reverse

/-- A concrete stand-in for `requests.compat.urljoin` in closed runs. -/
def urljoin0 : UrlJoin := fun b v => b ++ v

/-- Oracle for the internal-error run: homepage reachable, feed decoding
to the non-object JSON `[1]`, everything else unreachable. -/
def http5 : HttpOracle := fun url =>
  if url = "https://x.com" then .ok homeResp0
  else if url = "https://x.com/products.json" then .ok feedRespBad
  else .error ()

/-- Oracle for the determinism runs: homepage reachable, all else failing. -/
def http7 : HttpOracle := fun url =>
  if url = "https://x.com" then .ok homeResp0 else .error ()

def payload0 : List (String × String) := [("website_url", "https://x.com")]

/-- An empty reachable homepage for the host-normalization runs. -/
def htmlE : String := "<html></html>"

def domE : Dom := .elem "html" [] []

def parseE : String → Dom := fun _ => domE

def homeRespE : Response := { status_code := 200, jsonBody := none, text := htmlE }

/-- Scenario-E oracle: only `https://www.example.com` is reachable. -/
def httpE : HttpOracle := fun url =>
  if url = "https://www.example.com" then .ok homeRespE else .error ()

def payloadE : List (String × String) := [("website_url", "example.com")]

/-- Oracle for the C6 counterexample: the requested URL has `www.` in its
path (not as a host prefix); the original URL is unreachable while the
URL with `www.` inserted after the scheme is reachable. -/
def httpX : HttpOracle := fun url =>
  if url = "https://www.example.com/www.page" then .ok homeRespE else .error ()

def urlX : String := "https://example.com/www.page"

/-- Scenario-D DOM: one element of class `faq` with a `question` and an
`answer` sub-element, no disclosure elements. -/
def domD : Dom :=
  .elem "html" []
    [.elem "body" []
      [.elem "div" [("class", "faq")]
        [.elem "div" [("class", "question")] [.text "Q1?"],
         .elem "div" [("class", "answer")] [.text "A1"]]]]

/-- Same shape with the bare single-letter classes `q` and `a`, which the
spec says the fallback patterns accept as whole words. -/
def domQA : Dom :=
  .elem "html" []
    [.elem "body" []
      [.elem "div" [("class", "faq")]
        [.elem "div" [("class", "q")] [.text "Q1?"],
         .elem "div" [("class", "a")] [.text "A1"]]]]

/-! ## Support lemmas -/

theorem getLast?_eq_some_mem {α : Type _} {l : List α} {a : α}
    (h : l.getLast? = some a) : a ∈ l := by
  induction l with
  | nil => simp at h
  | cons x xs ih =>
    cases xs with
    | nil =>
      simp only [List.getLast?_singleton, Option.some.injEq] at h
      simp [h]
    | cons y ys =>
      rw [List.getLast?_cons_cons] at h
      exact List.mem_cons_of_mem _ (ih h)

theorem pyLookup_map_update_self {α : Type _} (k : String) (v : α) :
    ∀ (d : List (String × α)), (d.any fun kv => decide (kv.1 = k)) = true →
      pyLookup k (d.map (fun kv => if kv.1 = k then (k, v) else kv)) = some v := by
  intro d
  induction d with
  | nil => intro h; simp at h
  | cons kv rest ih =>
    intro h
    by_cases hk : kv.1 = k
    · simp [pyLookup, hk]
    · simp only [List.any_cons, Bool.or_eq_true, decide_eq_true_eq] at h
      rcases h with h1 | h2
      · exact absurd h1 hk
      · simpa [pyLookup, hk] using ih h2

theorem pyLookup_map_update_ne {α : Type _} (k : String) (v : α) (k' : String)
    (h : k' ≠ k) : ∀ (d : List (String × α)),
      pyLookup k' (d.map (fun kv => if kv.1 = k then (k, v) else kv))
        = pyLookup k' d := by
  intro d
  induction d with
  | nil => rfl
  | cons kv rest ih =>
    simp only [List.map_cons]
    by_cases hk : kv.1 = k
    · have hne : ¬ k = k' := fun hc => h hc.symm
      rw [if_pos hk]
      simp [pyLookup, hk, hne, ih]
    · rw [if_neg hk]
      simp [pyLookup, ih]

theorem pyLookup_append_single_self {α : Type _} (k : String) (v : α) :
    ∀ (d : List (String × α)), ¬ (d.any fun kv => decide (kv.1 = k)) = true →
      pyLookup k (d ++ [(k, v)]) = some v := by
  intro d
  induction d with
  | nil => intro _; simp [pyLookup]
  | cons kv rest ih =>
    intro h
    simp only [List.any_cons, Bool.or_eq_true, decide_eq_true_eq, not_or] at h
    simpa [pyLookup, h.1] using ih h.2

theorem pyLookup_append_single_ne {α : Type _} (k : String) (v : α) (k' : String)
    (h : k' ≠ k) : ∀ (d : List (String × α)),
      pyLookup k' (d ++ [(k, v)]) = pyLookup k' d := by
  intro d
  induction d with
  | nil =>
    have hne : ¬ k = k' := fun hc => h hc.symm
    simp [pyLookup, hne]
  | cons kv rest ih => simp [pyLookup, ih]

theorem pyLookup_pyDictSet_self {α : Type _} (d : List (String × α))
    (k : String) (v : α) : pyLookup k (pyDictSet d k v) = some v := by
  unfold pyDictSet
  split
  · exact pyLookup_map_update_self k v d (by assumption)
  · exact pyLookup_append_single_self k v d (by assumption)

theorem pyLookup_pyDictSet_ne {α : Type _} (d : List (String × α))
    (k : String) (v : α) (k' : String) (h : k' ≠ k) :
    pyLookup k' (pyDictSet d k v) = pyLookup k' d := by
  unfold pyDictSet
  split
  · exact pyLookup_map_update_ne k v k' h d
  · exact pyLookup_append_single_ne k v k' h d

theorem keys_map_update {α : Type _} (k : String) (v : α) :
    ∀ (d : List (String × α)),
      (d.map (fun kv => if kv.1 = k then (k, v) else kv)).map Prod.fst
        = d.map Prod.fst := by
  intro d
  induction d with
  | nil => rfl
  | cons kv rest ih =>
    by_cases hk : kv.1 = k
    · simp only [List.map_cons, if_pos hk, ih]
      rw [hk]
    · simp only [List.map_cons, if_neg hk, ih]

theorem mem_keys_pyDictSet {α : Type _} {d : List (String × α)} {k : String}
    {v : α} {kv : String × α} (h : kv ∈ pyDictSet d k v) :
    kv.1 = k ∨ kv.1 ∈ d.map Prod.fst := by
  unfold pyDictSet at h
  split at h
  · rcases List.mem_map.mp h with ⟨kv', hmem, heq⟩
    by_cases hk : kv'.1 = k
    · rw [if_pos hk] at heq
      left
      rw [← heq]
    · rw [if_neg hk] at heq
      right
      rw [← heq]
      exact List.mem_map_of_mem _ hmem
  · rcases List.mem_append.mp h with h1 | h1
    · right; exact List.mem_map_of_mem _ h1
    · left
      simp only [List.mem_singleton] at h1
      rw [h1]

theorem nodup_keys_pyDictSet {α : Type _} {d : List (String × α)} (k : String)
    (v : α) (h : (d.map Prod.fst).Nodup) :
    ((pyDictSet d k v).map Prod.fst).Nodup := by
  unfold pyDictSet
  split
  · rename_i hany
    rw [keys_map_update]; exact h
  · rename_i hany
    have hk : k ∉ d.map Prod.fst := by
      intro hmem
      rcases List.mem_map.mp hmem with ⟨kv, hkv, hfst⟩
      exact hany (List.any_eq_true.mpr ⟨kv, hkv, by simp [hfst]⟩)
    simp only [List.map_append, List.map_cons, List.map_nil]
    exact List.Nodup.append h (List.nodup_singleton k) (by simp [List.disjoint_singleton, hk])

theorem platformOf_mem_five {href p : String} (h : platformOf href = some p) :
    p ∈ fivePlatforms := by
  unfold platformOf at h
  repeat' split at h
  all_goals simp_all [fivePlatforms]

theorem key_mem_pyDictSet {α : Type _} {d : List (String × α)} {k k' : String}
    {v : α} (h : k' ∈ (pyDictSet d k v).map Prod.fst) :
    k' = k ∨ k' ∈ d.map Prod.fst := by
  rcases List.mem_map.mp h with ⟨kv', hkv', hfst⟩
  rcases mem_keys_pyDictSet hkv' with h2 | h2
  · left; rw [← hfst]; exact h2
  · right; rw [← hfst]; exact h2

theorem key_mem_socialStep {d : List (String × String)} {href k : String}
    (h : k ∈ (socialStep d href).map Prod.fst) :
    k ∈ d.map Prod.fst ∨ k ∈ fivePlatforms := by
  unfold socialStep at h
  cases hp : platformOf href with
  | none => rw [hp] at h; exact Or.inl h
  | some p =>
    rw [hp] at h
    rcases key_mem_pyDictSet h with h1 | h1
    · right; rw [h1]; exact platformOf_mem_five hp
    · left; exact h1

theorem socialFold_keys {hrefs : List String} :
    ∀ {d : List (String × String)}, ∀ kv ∈ socialFold hrefs d,
      kv.1 ∈ d.map Prod.fst ∨ kv.1 ∈ fivePlatforms := by
  induction hrefs with
  | nil => intro d kv h; exact Or.inl (List.mem_map_of_mem _ h)
  | cons href rest ih =>
    intro d kv h
    simp only [socialFold] at h
    rcases ih kv h with h1 | h1
    · exact key_mem_socialStep h1
    · right; exact h1

theorem nodup_keys_socialStep {d : List (String × String)} (href : String)
    (h : (d.map Prod.fst).Nodup) : ((socialStep d href).map Prod.fst).Nodup := by
  unfold socialStep
  cases platformOf href with
  | none => exact h
  | some p => exact nodup_keys_pyDictSet p href h

theorem socialFold_nodup {hrefs : List String} :
    ∀ {d : List (String × String)}, (d.map Prod.fst).Nodup →
      ((socialFold hrefs d).map Prod.fst).Nodup := by
  induction hrefs with
  | nil => intro d h; exact h
  | cons href rest ih =>
    intro d h
    simp only [socialFold]
    exact ih (nodup_keys_socialStep href h)

theorem socialFold_append (x : String) :
    ∀ (xs : List String) (d : List (String × String)),
      socialFold (xs ++ [x]) d = socialStep (socialFold xs d) x := by
  intro xs
  induction xs with
  | nil => intro d; rfl
  | cons y ys ih =>
    intro d
    simp only [List.cons_append, socialFold]
    exact ih _

theorem socialFold_lookup (p : String) (hrefs : List String) :
    ∀ (d : List (String × String)),
      pyLookup p (socialFold hrefs d)
        = match (hrefs.filter (fun h => platformOf h == some p)).getLast? with
          | some h => some h
          | none => pyLookup p d := by
  induction hrefs using List.reverseRecOn with
  | nil => intro d; rfl
  | append_singleton xs x ih =>
    intro d
    rw [socialFold_append, List.filter_append]
    unfold socialStep
    cases hp : platformOf x with
    | none =>
      have hfx : [x].filter (fun h => platformOf h == some p) = [] := by
        simp [List.filter, hp]
      rw [hfx, List.append_nil]
      exact ih d
    | some q =>
      by_cases hq : q = p
      · subst hq
        have hfx : [x].filter (fun h => platformOf h == some q) = [x] := by
          simp [List.filter, hp]
        rw [hfx, List.getLast?_concat]
        exact pyLookup_pyDictSet_self _ q x
      · have hb : (q == p) = false := by simp [hq]
        have hfx : [x].filter (fun h => platformOf h == some p) = [] := by
          simp [List.filter, hp, hb]
        rw [hfx, List.append_nil]
        rw [pyLookup_pyDictSet_ne _ q x p (fun hc => hq hc.symm)]
        exact ih d

theorem dedupByKey_sublist : ∀ (xs : List Product) (seen : List String),
    (dedupByKey xs seen).Sublist xs := by
  intro xs
  induction xs with
  | nil => intro seen; simp [dedupByKey]
  | cons h t ih =>
    intro seen
    unfold dedupByKey
    split
    · exact (ih seen).cons h
    · exact (ih _).cons₂ h

theorem dedupByKey_key_not_seen : ∀ (xs : List Product) (seen : List String),
    ∀ x ∈ dedupByKey xs seen, identityKey x ∉ seen := by
  intro xs
  induction xs with
  | nil => intro seen x hx; simp [dedupByKey] at hx
  | cons h t ih =>
    intro seen x hx
    unfold dedupByKey at hx
    split at hx
    · exact ih seen x hx
    · rename_i hnot
      rcases List.mem_cons.mp hx with h1 | h1
      · rw [h1]; exact hnot
      · intro hc
        exact ih _ x h1 (List.mem_cons_of_mem _ hc)

theorem dedupByKey_keys_nodup : ∀ (xs : List Product) (seen : List String),
    ((dedupByKey xs seen).map identityKey).Nodup := by
  intro xs
  induction xs with
  | nil => intro seen; simp [dedupByKey]
  | cons h t ih =>
    intro seen
    unfold dedupByKey
    split
    · exact ih seen
    · simp only [List.map_cons, List.nodup_cons]
      constructor
      · intro hc
        rcases List.mem_map.mp hc with ⟨y, hy, hkey⟩
        exact dedupByKey_key_not_seen t _ y hy (by rw [hkey]; exact List.mem_cons_self _ _)
      · exact ih _

theorem dedupByKey_find : ∀ (xs : List Product) (seen : List String),
    ∀ x ∈ dedupByKey xs seen,
      xs.find? (fun y => identityKey y == identityKey x) = some x := by
  intro xs
  induction xs with
  | nil => intro seen x hx; simp [dedupByKey] at hx
  | cons h t ih =>
    intro seen x hx
    unfold dedupByKey at hx
    split at hx
    · rename_i hseen
      have hxseen := dedupByKey_key_not_seen t seen x hx
      have hne : (identityKey h == identityKey x) = false := by
        simp only [beq_eq_false_iff_ne, ne_eq]
        intro hc
        exact hxseen (hc ▸ hseen)
      simp only [List.find?_cons, hne]
      exact ih seen x hx
    · rcases List.mem_cons.mp hx with h1 | h1
      · subst h1
        simp [List.find?_cons]
      · have hxseen := dedupByKey_key_not_seen t _ x h1
        have hne : (identityKey h == identityKey x) = false := by
          simp only [beq_eq_false_iff_ne, ne_eq]
          intro hc
          exact hxseen (hc ▸ List.mem_cons_self _ _)
        simp only [List.find?_cons, hne]
        exact ih _ x h1

theorem dedupByKey_covers : ∀ (xs : List Product) (seen : List String),
    ∀ x ∈ xs, identityKey x ∈ seen
      ∨ identityKey x ∈ (dedupByKey xs seen).map identityKey := by
  intro xs
  induction xs with
  | nil => intro seen x hx; simp at hx
  | cons h t ih =>
    intro seen x hx
    unfold dedupByKey
    rcases List.mem_cons.mp hx with h1 | h1
    · subst h1
      split
      · rename_i hseen; exact Or.inl hseen
      · right
        simp only [List.map_cons]
        exact List.mem_cons_self _ _
    · split
      · exact ih seen x h1
      · rcases ih (identityKey h :: seen) x h1 with h2 | h2
        · rcases List.mem_cons.mp h2 with h3 | h3
          · right
            simp only [List.map_cons, h3]
            exact List.mem_cons_self _ _
          · exact Or.inl h3
        · right
          simp only [List.map_cons]
          exact List.mem_cons_of_mem _ h2

theorem handlesToProduct_mem {products : List Product} {h : String} {p : Product}
    (hp : handlesToProduct products h = some p) : p ∈ products := by
  unfold handlesToProduct at hp
  exact List.mem_of_mem_filter (getLast?_eq_some_mem hp)

theorem heroTitleScan_subset {products acc : List Product} {text : String}
    (hacc : ∀ x ∈ acc, x ∈ products) :
    ∀ x ∈ heroTitleScan products acc text, x ∈ products := by
  intro x hx
  unfold heroTitleScan at hx
  split at hx
  · rename_i p hp
    rcases List.mem_append.mp hx with h1 | h1
    · exact hacc x h1
    · simp only [List.mem_singleton] at h1
      rw [h1]; exact List.mem_of_find?_eq_some hp
  · exact hacc x hx

theorem heroStep_subset {products acc : List Product} {card : Card}
    (hacc : ∀ x ∈ acc, x ∈ products) :
    ∀ x ∈ heroStep products acc card, x ∈ products := by
  intro x hx
  unfold heroStep at hx
  split at hx
  · split at hx
    · rename_i p hp
      rcases List.mem_append.mp hx with h1 | h1
      · exact hacc x h1
      · simp only [List.mem_singleton] at h1
        rw [h1]; exact handlesToProduct_mem hp
    · exact heroTitleScan_subset hacc x hx
  · exact heroTitleScan_subset hacc x hx

theorem heroRawMatches_subset (cards : List Card) (products : List Product) :
    ∀ x ∈ heroRawMatches cards products, x ∈ products := by
  unfold heroRawMatches
  suffices hgen : ∀ (cs : List Card) (acc : List Product),
      (∀ x ∈ acc, x ∈ products) →
      ∀ x ∈ cs.foldl (heroStep products) acc, x ∈ products by
    exact hgen cards [] (by intro x hx; simp at hx)
  intro cs
  induction cs with
  | nil => intro acc hacc x hx; exact hacc x hx
  | cons c rest ih =>
    intro acc hacc x hx
    simp only [List.foldl_cons] at hx
    exact ih _ (heroStep_subset hacc) x hx

theorem getLast?_cons_ne_none (z : α) (zs : List α) : (z :: zs).getLast? ≠ none := by
  induction zs generalizing z with
  | nil => simp
  | cons y ys ih => rw [List.getLast?_cons_cons]; exact ih y

theorem linkTableMatch_fold (urljoin : UrlJoin) (base : String)
    (pats : List String) :
    ∀ (links : List (String × String)) (acc : Option String),
      links.foldl
        (fun acc kv =>
          if kv.2 = "" then acc
          else if pats.any (fun pat => pyIn pat kv.2) then some (urljoin base kv.2)
          else acc) acc
        = match (matchingLinks pats links).getLast? with
          | some kv => some (urljoin base kv.2)
          | none => acc := by
  intro links
  induction links with
  | nil => intro acc; rfl
  | cons l ls ih =>
    intro acc
    simp only [List.foldl_cons]
    by_cases h2 : l.2 = ""
    · rw [if_pos h2]
      have hml : matchingLinks pats (l :: ls) = matchingLinks pats ls := by
        unfold matchingLinks
        simp [List.filter_cons, h2]
      rw [hml]
      exact ih acc
    · rw [if_neg h2]
      by_cases hp : pats.any (fun pat => pyIn pat l.2) = true
      · rw [if_pos hp]
        have hml : matchingLinks pats (l :: ls) = l :: matchingLinks pats ls := by
          unfold matchingLinks
          simp [List.filter_cons, h2, hp]
        rw [hml, ih]
        cases hlast : (matchingLinks pats ls).getLast? with
        | some kv =>
          have hcons : (l :: matchingLinks pats ls).getLast? = some kv := by
            cases hm : matchingLinks pats ls with
            | nil => rw [hm] at hlast; simp at hlast
            | cons z zs =>
              rw [hm] at hlast
              rw [List.getLast?_cons_cons]
              exact hlast
          rw [hcons]
        | none =>
          have hnil : matchingLinks pats ls = [] := by
            cases hm : matchingLinks pats ls with
            | nil => rfl
            | cons z zs =>
              rw [hm] at hlast
              exact absurd hlast (getLast?_cons_ne_none z zs)
          rw [hnil]
          simp [List.getLast?_singleton]
      · rw [if_neg hp]
        have hml : matchingLinks pats (l :: ls) = matchingLinks pats ls := by
          unfold matchingLinks
          simp [List.filter_cons, h2, hp]
        rw [hml]
        exact ih acc

theorem linkTableMatch_eq (urljoin : UrlJoin) (base : String) (pats : List String)
    (links : List (String × String)) :
    linkTableMatch urljoin base pats links
      = match (matchingLinks pats links).getLast? with
        | some kv => some (urljoin base kv.2)
        | none => none := by
  unfold linkTableMatch
  exact linkTableMatch_fold urljoin base pats links none

theorem probeCategory_eq (http : HttpOracle) (base : String) :
    ∀ (pats : List String),
      probeCategory http base pats
        = match (pats.map (fun pat => base ++ pat)).find?
              (fun c => (safe_get http c).isSome) with
          | some c => (some c,
              (pats.map (fun pat => base ++ pat)).takeWhile
                (fun c => !(safe_get http c).isSome) ++ [c])
          | none => (none, pats.map (fun pat => base ++ pat)) := by
  intro pats
  induction pats with
  | nil => rfl
  | cons pat rest ih =>
    simp only [probeCategory, List.map_cons]
    cases hs : safe_get http (base ++ pat) with
    | some r =>
      have hsome : (safe_get http (base ++ pat)).isSome = true := by rw [hs]; rfl
      simp [List.find?_cons, List.takeWhile_cons, hsome, hs]
    | none =>
      have hnone : (safe_get http (base ++ pat)).isSome = false := by rw [hs]; rfl
      have hisNone : (safe_get http (base ++ pat)).isNone = true := by rw [hs]; rfl
      rw [ih]
      cases hf : (rest.map (fun pat => base ++ pat)).find?
          (fun c => (safe_get http c).isSome) with
      | some c => simp [List.find?_cons, List.takeWhile_cons, hnone, hisNone, hf]
      | none => simp [List.find?_cons, hnone, hf]

theorem resolveCategory_of_match (http : HttpOracle) (urljoin : UrlJoin)
    (base : String) (links : List (String × String)) (pats : List String)
    (kv : String × String)
    (hkv : (matchingLinks pats links).getLast? = some kv)
    (hne : urljoin base kv.2 ≠ "") :
    resolveCategory http urljoin base links pats
      = (some (urljoin base kv.2), []) := by
  unfold resolveCategory
  rw [linkTableMatch_eq, hkv]
  rw [if_neg (by simp [hne])]

theorem resolveCategory_of_no_match (http : HttpOracle) (urljoin : UrlJoin)
    (base : String) (links : List (String × String)) (pats : List String)
    (hkv : (matchingLinks pats links).getLast? = none) :
    resolveCategory http urljoin base links pats
      = probeCategory http base pats := by
  unfold resolveCategory
  rw [linkTableMatch_eq, hkv]
  rw [if_pos (Or.inl rfl)]
  cases hpc : probeCategory http base pats with
  | mk v ps => cases v <;> simp

theorem mem_matchingLinks_snd_ne {pats : List String}
    {links : List (String × String)} {kv : String × String}
    (h : kv ∈ matchingLinks pats links) : kv.2 ≠ "" := by
  have := List.of_mem_filter h
  simp only [Bool.and_eq_true, Bool.not_eq_true', beq_eq_false_iff_ne, ne_eq] at this
  exact this.1

theorem heroStep_nil_products (acc : List Product) (card : Card) :
    heroStep [] acc card = acc := by
  unfold heroStep
  cases (extractProductsHandle (pyOrEmpty card.href)).map pyLower <;> rfl

theorem heroRawMatches_nil_products (cards : List Card) :
    heroRawMatches cards [] = [] := by
  unfold heroRawMatches
  suffices hgen : ∀ acc : List Product, cards.foldl (heroStep []) acc = acc from hgen []
  induction cards with
  | nil => intro acc; rfl
  | cons c rest ih =>
    intro acc
    simp only [List.foldl_cons, heroStep_nil_products]
    exact ih acc

/-! ## Claim theorems -/

/-- C1: for every list of product-card candidates and every canonical
catalog, `hero_product_matches` returns only products drawn from the
catalog, with no two entries sharing an identity key (handle, else title,
else id-as-string); it is a subsequence of the raw match list that keeps
each key's first occurrence and drops later duplicates (so encounter order
is preserved and no matched key is lost), and it is empty whenever the
catalog is empty. -/
theorem hero_product_matches_c1 (cards : List Card) (products : List Product)
    (base_url : String) :
    (products = [] → hero_product_matches cards products base_url = [])
    ∧ (∀ h ∈ hero_product_matches cards products base_url, h ∈ products)
    ∧ ((hero_product_matches cards products base_url).map identityKey).Nodup
    ∧ (hero_product_matches cards products base_url).Sublist
        (heroRawMatches cards products)
    ∧ (∀ h ∈ hero_product_matches cards products base_url,
        (heroRawMatches cards products).find?
          (fun y => identityKey y == identityKey h) = some h)
    ∧ (∀ h ∈ heroRawMatches cards products,
        identityKey h ∈ (hero_product_matches cards products base_url).map identityKey) := by
  unfold hero_product_matches
  by_cases hp : products.isEmpty
  · have hnil : products = [] := List.isEmpty_iff.mp hp
    rw [if_pos hp]
    subst hnil
    refine ⟨fun _ => rfl, ?_, ?_, ?_, ?_, ?_⟩
    · intro h hh; simp at hh
    · simp
    · exact List.nil_sublist _
    · intro h hh; simp at hh
    · intro h hh
      rw [heroRawMatches_nil_products] at hh
      simp at hh
  · rw [if_neg hp]
    have hne : products ≠ [] := fun hc => hp (by rw [hc]; rfl)
    refine ⟨fun hc => absurd hc hne, ?_, ?_, ?_, ?_, ?_⟩
    · intro h hh
      exact heroRawMatches_subset cards products h
        (List.Sublist.mem hh (dedupByKey_sublist _ []))
    · exact dedupByKey_keys_nodup _ []
    · exact dedupByKey_sublist _ []
    · exact dedupByKey_find _ []
    · intro h hh
      rcases dedupByKey_covers (heroRawMatches cards products) [] h hh with h1 | h1
      · simp at h1
      · exact h1

/-- C1 witness: the invariants instantiated at the Scenario-B card and
catalog. -/
theorem hero_product_matches_c1_witness :
    ∀ h ∈ hero_product_matches [cardB] [productB] "https://x.com",
      h ∈ [productB] :=
  (hero_product_matches_c1 [cardB] [productB] "https://x.com").2.1

/-- C2: on the feed body
`{"products":[{"id":1,"title":"Widget","handle":"widget"}]}` the Catalog
Normalizer produces the single catalog entry with id 1 and handle
`widget`, and the Hero Matcher maps a card whose href contains
`/products/widget` to exactly that product. -/
theorem scenario_b_c2 :
    fetch_products_json httpB "https://x.com" = .ok [productB]
    ∧ productB.id = some 1
    ∧ productB.handle = some "widget"
    ∧ pyIn "/products/widget" (pyOrEmpty cardB.href) = true
    ∧ hero_product_matches [cardB] [productB] "https://x.com" = [productB] :=
  ⟨rfl, rfl, rfl, rfl, rfl⟩

/-- C3 (code bug): a feed answering 200 with the valid JSON body `[1]` is
not an object, so `data.get("products")` raises an uncaught
`AttributeError` instead of soft-failing to `[]`; entries that are objects
with missing fields do decode defensively. -/
theorem fetch_products_json_c3_bug :
    fetch_products_json httpBad "https://x.com" = .error .attributeError
    ∧ fetch_products_json httpM "https://x.com"
        = .ok [{ id := none, title := none, handle := none,
                 variants := none, images := some [] }] :=
  ⟨rfl, rfl⟩

/-- C4: the Policy Resolver always returns exactly the three fixed
category keys; a category with a link-table match resolves to the absolute
join of base and the (last) matching href with no probe issued; a category
without one probes its candidate paths in declared order, recording the
first reachable candidate and stopping there. -/
theorem find_policy_links_c4 (http : HttpOracle) (urljoin : UrlJoin)
    (base_url : String) (links : List (String × String))
    (hju : ∀ v, v ≠ "" → urljoin (pyRstripSlash base_url) v ≠ "") :
    ((find_policy_links http urljoin base_url links).1.map Prod.fst
        = ["privacy_policy", "refund_policy", "terms_of_service"])
    ∧ (find_policy_links http urljoin base_url links).1
        = [("privacy_policy",
            (resolveCategory http urljoin (pyRstripSlash base_url) links privacyPats).1),
           ("refund_policy",
            (resolveCategory http urljoin (pyRstripSlash base_url) links refundPats).1),
           ("terms_of_service",
            (resolveCategory http urljoin (pyRstripSlash base_url) links termsPats).1)]
    ∧ (find_policy_links http urljoin base_url links).2
        = (resolveCategory http urljoin (pyRstripSlash base_url) links privacyPats).2
          ++ (resolveCategory http urljoin (pyRstripSlash base_url) links refundPats).2
          ++ (resolveCategory http urljoin (pyRstripSlash base_url) links termsPats).2
    ∧ (∀ pats kv, (matchingLinks pats links).getLast? = some kv →
        resolveCategory http urljoin (pyRstripSlash base_url) links pats
          = (some (urljoin (pyRstripSlash base_url) kv.2), []))
    ∧ (∀ pats, (matchingLinks pats links).getLast? = none →
        resolveCategory http urljoin (pyRstripSlash base_url) links pats
          = probeCategory http (pyRstripSlash base_url) pats)
    ∧ (∀ pats,
        probeCategory http (pyRstripSlash base_url) pats
          = (match (pats.map (fun pat => pyRstripSlash base_url ++ pat)).find?
                (fun c => (safe_get http c).isSome) with
             | some c => (some c,
                (pats.map (fun pat => pyRstripSlash base_url ++ pat)).takeWhile
                  (fun c => !(safe_get http c).isSome) ++ [c])
             | none => (none, pats.map (fun pat => pyRstripSlash base_url ++ pat)))) := by
  refine ⟨rfl, rfl, rfl, ?_, ?_, ?_⟩
  · intro pats kv hkv
    have hmem : kv ∈ matchingLinks pats links := getLast?_eq_some_mem hkv
    exact resolveCategory_of_match http urljoin _ links pats kv hkv
      (hju kv.2 (mem_matchingLinks_snd_ne hmem))
  · intro pats hkv
    exact resolveCategory_of_no_match http urljoin _ links pats hkv
  · intro pats
    exact probeCategory_eq http _ pats

/-- C4 witness: Scenario C — the link table `{"Privacy":
"/policies/privacy-policy"}` resolves the privacy category from the table
with no probe issued, and all three keys are present. -/
theorem find_policy_links_c4_witness :
    ((find_policy_links httpB (fun _ v => v) "https://x.com"
        [("Privacy", "/policies/privacy-policy")]).1.map Prod.fst
      = ["privacy_policy", "refund_policy", "terms_of_service"])
    ∧ resolveCategory httpB (fun _ v => v) (pyRstripSlash "https://x.com")
        [("Privacy", "/policies/privacy-policy")] privacyPats
      = (some "/policies/privacy-policy", []) := by
  have h := find_policy_links_c4 httpB (fun _ v => v) "https://x.com"
    [("Privacy", "/policies/privacy-policy")] (fun v hv => hv)
  refine ⟨h.1, ?_⟩
  exact h.2.2.2.1 privacyPats ("Privacy", "/policies/privacy-policy") rfl

/-- C5 (code bug): with `website_url` present and the homepage reachable,
a feed response decoding to the non-object JSON `[1]` makes the whole
`/fetch` operation raise an uncaught `AttributeError` — a hard failure
that is neither the 400 for missing input nor the 401 for unreachability,
and no `BrandContext` is returned. -/
theorem fetch_insights_c5_bug :
    pyLookup "website_url" payload0 = some "https://x.com"
    ∧ (safe_get http5 "https://x.com").isSome = true
    ∧ fetch_insights http5 urljoin0 parse0 pySetListA pySetListA payload0
        = .error (.internalError .attributeError) :=
  ⟨rfl, rfl, rfl⟩

/-- C7 (code bug): with identical homepage, feed and probe oracles, two
runs that differ only in CPython's salt-dependent `list(set(...))`
enumeration of the email/phone match sets produce different `emails`
lists — the two enumerations are permutations of the same set — so the
serialized output is not byte-identical across runs. -/
theorem fetch_insights_c7_nondeterminism :
    Except.map (fun bc => bc.emails)
      (fetch_insights http7 urljoin0 parse0 pySetListA pySetListA payload0)
      = .ok ["a@x.com", "b@x.com"]
    ∧ Except.map (fun bc => bc.emails)
      (fetch_insights http7 urljoin0 parse0 pySetListB pySetListB payload0)
      = .ok ["b@x.com", "a@x.com"]
    ∧ (pySetListA (pyFindallEmails html0)).Perm (pySetListB (pyFindallEmails html0))
    ∧ fetch_insights http7 urljoin0 parse0 pySetListA pySetListA payload0
      ≠ fetch_insights http7 urljoin0 parse0 pySetListB pySetListB payload0 := by
  refine ⟨rfl, rfl, by decide, ?_⟩
  intro h
  have h2 := congrArg (Except.map (fun bc => bc.emails)) h
  rw [show Except.map (fun bc => bc.emails)
      (fetch_insights http7 urljoin0 parse0 pySetListA pySetListA payload0)
      = Except.ok ["a@x.com", "b@x.com"] from rfl] at h2
  rw [show Except.map (fun bc => bc.emails)
      (fetch_insights http7 urljoin0 parse0 pySetListB pySetListB payload0)
      = Except.ok ["b@x.com", "a@x.com"] from rfl] at h2
  simp only [Except.ok.injEq] at h2
  exact absurd h2 (by decide)

/-- C8 (code bug): the fallback strategy fires only when the disclosure
scan is empty and handles Scenario D (classes `question`/`answer`), but
the patterns `'question|q\b'` / `'answer|a\b'` are non-raw Python strings,
so `\b` is a literal backspace and the bare classes `q`/`a` never match:
the bare-letter DOM yields no entry instead of one. -/
theorem try_fetch_faqs_c8_bug :
    try_fetch_faqs domD = [("Q1?", "A1")]
    ∧ try_fetch_faqs domQA = []
    ∧ matchesQPattern "q" = false
    ∧ matchesAPattern "a" = false
    ∧ matchesQPattern "question" = true
    ∧ matchesAPattern "answer" = true :=
  ⟨rfl, rfl, rfl, rfl, rfl, rfl⟩

/-- C9: the social-handle map has keys drawn from exactly the five fixed
platforms, at most one entry per platform, and each platform's entry is
the href of the last matching anchor in document order. -/
theorem extract_links_c9 (parse : String → Dom)
    (setE setP : List String → List String) (html : String) :
    (∀ kv ∈ (extract_links_and_text parse setE setP html).social,
        kv.1 ∈ fivePlatforms)
    ∧ (((extract_links_and_text parse setE setP html).social.map Prod.fst).Nodup)
    ∧ (∀ p, pyLookup p (extract_links_and_text parse setE setP html).social
        = (((parse html).anchorsWithHref.map
              (fun a => pyOrEmpty (a.attr "href"))).filter
            (fun h => platformOf h == some p)).getLast?) := by
  refine ⟨?_, ?_, ?_⟩
  · intro kv hkv
    rcases socialFold_keys kv hkv with h1 | h1
    · simp at h1
    · exact h1
  · exact socialFold_nodup (by simp)
  · intro p
    have h := socialFold_lookup p
      ((parse html).anchorsWithHref.map (fun a => pyOrEmpty (a.attr "href"))) []
    rw [show (extract_links_and_text parse setE setP html).social
        = socialFold ((parse html).anchorsWithHref.map
            (fun a => pyOrEmpty (a.attr "href"))) [] from rfl]
    rw [h]
    cases (((parse html).anchorsWithHref.map
        (fun a => pyOrEmpty (a.attr "href"))).filter
          (fun h => platformOf h == some p)).getLast? <;> rfl

/-- C9 witness: the invariants instantiated at the concrete homepage. -/
theorem extract_links_c9_witness :
    ∀ kv ∈ (extract_links_and_text parse0 pySetListA pySetListA html0).social,
      kv.1 ∈ fivePlatforms :=
  (extract_links_c9 parse0 pySetListA pySetListA html0).1

/-- C10: `safe_get` yields a response exactly when the request completes
without exception and the status code is exactly 200; any other status and
any request exception are reported as `None`. -/
theorem safe_get_c10 (http : HttpOracle) (url : String) :
    (∀ r, safe_get http url = some r ↔ (http url = .ok r ∧ r.status_code = 200))
    ∧ (safe_get http url = none
        ↔ (∀ r, http url = Except.ok r → r.status_code ≠ 200)) := by
  constructor
  · intro r
    unfold safe_get
    cases he : http url with
    | error e =>
      constructor
      · intro h; exact Option.noConfusion h
      · intro h; exact Except.noConfusion h.1
    | ok resp =>
      show (if (resp.status_code == 200) = true then some resp else none) = some r
          ↔ (Except.ok resp = Except.ok r ∧ r.status_code = 200)
      by_cases hs : resp.status_code = 200
      · rw [if_pos (by simp [hs])]
        constructor
        · intro h
          injection h with h3
          subst h3
          exact ⟨rfl, hs⟩
        · intro h
          injection h.1 with h3
          subst h3
          rfl
      · rw [if_neg (by simp [hs])]
        constructor
        · intro h; exact Option.noConfusion h
        · intro h
          injection h.1 with h3
          subst h3
          exact absurd h.2 hs
  · unfold safe_get
    cases he : http url with
    | error e =>
      constructor
      · intro _ r hr; exact Except.noConfusion hr
      · intro _; rfl
    | ok resp =>
      show (if (resp.status_code == 200) = true then some resp else none) = none
          ↔ (∀ r, Except.ok resp = Except.ok r → r.status_code ≠ 200)
      by_cases hs : resp.status_code = 200
      · rw [if_pos (by simp [hs])]
        constructor
        · intro h; exact Option.noConfusion h
        · intro h
          exact absurd hs (h resp rfl)
      · rw [if_neg (by simp [hs])]
        constructor
        · intro _ r hr
          injection hr with h3
          subst h3
          exact hs
        · intro _; rfl

theorem resolveHomepage_fail_retry (http : HttpOracle) (u : String)
    (hfail : safe_get http u = none)
    (hcond : (pyStartsWith u "https://" && !pyIn "www." u) = true) :
    resolveHomepage http u
      = (match safe_get http (pyReplace u "https://" "https://www.") with
         | some r => (some r, pyReplace u "https://" "https://www.",
                      [u, pyReplace u "https://" "https://www."])
         | none => (none, u, [u, pyReplace u "https://" "https://www."])) := by
  unfold resolveHomepage
  simp only [hfail, hcond, if_true]

theorem resolveHomepage_fail_no_retry (http : HttpOracle) (u : String)
    (hfail : safe_get http u = none)
    (hcond : (pyStartsWith u "https://" && !pyIn "www." u) = false) :
    resolveHomepage http u = (none, u, [u]) := by
  unfold resolveHomepage
  simp only [hfail, hcond, Bool.false_eq_true, if_false]

theorem fetch_insights_eq (http : HttpOracle) (urljoin : UrlJoin)
    (parse : String → Dom) (setE setP : List String → List String)
    (wu : String) (hwu : wu ≠ "") :
    fetch_insights http urljoin parse setE setP [("website_url", wu)]
      = (match resolveHomepage http (normalizeInputUrl wu) with
         | (none, fin, _) => .error (.unreachable401 fin)
         | (some r, fin, _) =>
            assemblePipeline http urljoin parse setE setP fin r) := by
  unfold fetch_insights
  simp [pyLookup, hwu]

theorem assemblePipeline_website_url (http : HttpOracle) (urljoin : UrlJoin)
    (parse : String → Dom) (setE setP : List String → List String)
    (fin : String) (r : Response) :
    ∀ bc, assemblePipeline http urljoin parse setE setP fin r = .ok bc →
      bc.website_url = fin := by
  intro bc hb
  unfold assemblePipeline at hb
  cases hfp : fetch_products_json http fin with
  | error e => rw [hfp] at hb; exact Except.noConfusion hb
  | ok ps =>
    rw [hfp] at hb
    injection hb with h3
    rw [← h3]

/-- C6 amended: the retry fires if and only if the (scheme-normalized)
URL starts with `https://` and does not contain `www.` anywhere in the
string (not merely "has no www. host prefix"); the retried URL is the
input with every occurrence of `https://` replaced by `https://www.`, and
when the retry succeeds that URL is handed to the rest of the pipeline and
becomes the `website_url` of the returned BrandContext. -/
theorem fetch_insights_c6_amended (http : HttpOracle) (urljoin : UrlJoin)
    (parse : String → Dom) (setE setP : List String → List String)
    (wu : String) (hwu : wu ≠ "") :
    (∀ r, safe_get http (normalizeInputUrl wu) = some r →
        resolveHomepage http (normalizeInputUrl wu)
          = (some r, normalizeInputUrl wu, [normalizeInputUrl wu]))
    ∧ (safe_get http (normalizeInputUrl wu) = none →
        (pyStartsWith (normalizeInputUrl wu) "https://"
            && !pyIn "www." (normalizeInputUrl wu)) = false →
        resolveHomepage http (normalizeInputUrl wu)
            = (none, normalizeInputUrl wu, [normalizeInputUrl wu])
          ∧ fetch_insights http urljoin parse setE setP [("website_url", wu)]
            = .error (.unreachable401 (normalizeInputUrl wu)))
    ∧ (safe_get http (normalizeInputUrl wu) = none →
        (pyStartsWith (normalizeInputUrl wu) "https://"
            && !pyIn "www." (normalizeInputUrl wu)) = true →
        (resolveHomepage http (normalizeInputUrl wu)).2.2
            = [normalizeInputUrl wu,
               pyReplace (normalizeInputUrl wu) "https://" "https://www."]
          ∧ (∀ r, safe_get http
                (pyReplace (normalizeInputUrl wu) "https://" "https://www.")
                  = some r →
              fetch_insights http urljoin parse setE setP [("website_url", wu)]
                  = assemblePipeline http urljoin parse setE setP
                      (pyReplace (normalizeInputUrl wu) "https://" "https://www.") r
                ∧ ∀ bc, assemblePipeline http urljoin parse setE setP
                      (pyReplace (normalizeInputUrl wu) "https://" "https://www.") r
                        = .ok bc →
                    bc.website_url
                      = pyReplace (normalizeInputUrl wu) "https://" "https://www.")) := by
  refine ⟨?_, ?_, ?_⟩
  · intro r hr
    unfold resolveHomepage
    simp only [hr]
  · intro hfail hcond
    refine ⟨resolveHomepage_fail_no_retry http _ hfail hcond, ?_⟩
    rw [fetch_insights_eq http urljoin parse setE setP wu hwu]
    rw [resolveHomepage_fail_no_retry http _ hfail hcond]
  · intro hfail hcond
    constructor
    · rw [resolveHomepage_fail_retry http _ hfail hcond]
      cases safe_get http (pyReplace (normalizeInputUrl wu) "https://" "https://www.") <;> rfl
    · intro r hr
      constructor
      · rw [fetch_insights_eq http urljoin parse setE setP wu hwu]
        rw [resolveHomepage_fail_retry http _ hfail hcond, hr]
      · exact assemblePipeline_website_url http urljoin parse setE setP _ r

/-- C6 witness (Scenario E): `example.com` is unreachable while
`www.example.com` answers, so the pipeline retries once and proceeds with
the www-prefixed URL, which ends up in the BrandContext. -/
theorem fetch_insights_c6_witness :
    (resolveHomepage httpE "https://example.com").2.2
        = ["https://example.com", "https://www.example.com"]
    ∧ fetch_insights httpE urljoin0 parseE pySetListA pySetListA
        [("website_url", "example.com")]
      = assemblePipeline httpE urljoin0 parseE pySetListA pySetListA
          "https://www.example.com" homeRespE := by
  have h := (fetch_insights_c6_amended httpE urljoin0 parseE pySetListA
    pySetListA "example.com" (by decide)).2.2 rfl rfl
  exact ⟨h.1, (h.2 homeRespE rfl).1⟩

/-- C6 counterexample: `https://example.com/www.page` uses the https
scheme and its host has no `www.` prefix, and the URL with `www.` inserted
after the scheme is reachable — yet the code performs no retry (a single
fetch attempt) and fails hard, because it tests for the substring `www.`
anywhere in the URL. -/
theorem fetch_insights_c6_counterexample :
    pyStartsWith urlX "https://" = true
    ∧ pyStartsWith urlX "https://www." = false
    ∧ (safe_get httpX (pyReplace urlX "https://" "https://www.")).isSome = true
    ∧ resolveHomepage httpX urlX = (none, urlX, [urlX])
    ∧ fetch_insights httpX urljoin0 parseE pySetListA pySetListA
        [("website_url", urlX)] = .error (.unreachable401 urlX) :=
  ⟨rfl, rfl, rfl, rfl, rfl⟩

/-- C10 witness: the characterization at a concrete oracle and URL. -/
theorem safe_get_c10_witness :
    safe_get httpB "https://x.com/products.json" = some feedRespB
      ↔ (httpB "https://x.com/products.json" = .ok feedRespB
          ∧ feedRespB.status_code = 200) :=
  (safe_get_c10 httpB "https://x.com/products.json").1 feedRespB

end ShopifyInsights
